import Mathlib

/-!
Shallow embedding of the logzilla log engine (Go) in Lean 4.

The definitions below are translated from the repository's source files:
`entity/logrecord.go`, `processor/util.go`, `processor/json.go`,
`querier/sqlbuilder.go`, `querier/node.go`, `querier/ast/ast.go`,
`querier/lexer/lexer.go`, `querier/token/token.go`,
`querier/parser/parser.go`, and `engine/source.go`.

Go `time.Time` values are modelled as `Int`: the number of seconds since the
Go zero time (January 1, year 1, 00:00:00 UTC).  All times the program
manipulates have zero nanoseconds, so this is faithful for `IsZero`,
`Compare` and `Before`.
-/

namespace Logzilla

/-- Decidable equality for `Except`, used to evaluate concrete outcomes. -/
instance {ε α : Type} [DecidableEq ε] [DecidableEq α] : DecidableEq (Except ε α) :=
  fun a b =>
    match a, b with
    | .ok x, .ok y =>
      if h : x = y then .isTrue (by rw [h]) else .isFalse (by intro hh; cases hh; exact h rfl)
    | .error x, .error y =>
      if h : x = y then .isTrue (by rw [h]) else .isFalse (by intro hh; cases hh; exact h rfl)
    | .ok _, .error _ => .isFalse (by intro hh; cases hh)
    | .error _, .ok _ => .isFalse (by intro hh; cases hh)

/-- Go `time.Time`, as seconds since the Go zero time (0001-01-01T00:00:00Z). -/
abbrev GoTime := Int

/-- Go `time.Time.IsZero`: the zero instant. -/
def GoTime.isZero (t : GoTime) : Bool := (t : Int) = 0

/-- Go `time.Time.Before`. -/
def GoTime.before (a b : GoTime) : Bool := (a : Int) < (b : Int)

/-- Go `a.Compare(b) < 0`, i.e. `a` is strictly earlier than `b`. -/
def GoTime.compareLt (a b : GoTime) : Bool := (a : Int) < (b : Int)

/-- Days-from-civil computation (proleptic Gregorian calendar), counting days
from a fixed era origin; used to turn a calendar date into an absolute day
number.  Valid for years `y ≥ 1`. -/
def daysFromCivil (y m d : Nat) : Nat :=
  let y' := if m ≤ 2 then y - 1 else y
  let era := y' / 400
  let yoe := y' % 400
  let doy := (153 * (if 2 < m then m - 3 else m + 9) + 2) / 5 + (d - 1)
  let doe := yoe * 365 + yoe / 4 - yoe / 100 + doy
  era * 146097 + doe

/-- Build a `GoTime` from UTC calendar fields.  `daysFromCivil 1 1 1 = 306`,
so the Go zero time maps to `0`. -/
def mkGoTime (y m d hh mi ss : Nat) : GoTime :=
  (((daysFromCivil y m d : Int) - 306) * 86400 + (hh * 3600 + mi * 60 + ss : Nat) : Int)

/-- Leap-year test of the Gregorian calendar. -/
def isLeapYear (y : Nat) : Bool :=
  (y % 4 = 0 && y % 100 ≠ 0) || y % 400 = 0

/-- Number of days in a month, as validated by Go `time.Parse`. -/
def daysInMonth (y m : Nat) : Nat :=
  if m = 2 then (if isLeapYear y then 29 else 28)
  else if m = 4 ∨ m = 6 ∨ m = 9 ∨ m = 11 then 30
  else 31

/-- The record level enumeration from `entity/logrecord.go`
(`LogLevelUnknown = 0` through `LogLevelFatal = 5`). -/
inductive LogLevel where
  | unknown
  | debug
  | info
  | warn
  | error
  | fatal
deriving DecidableEq, Repr

/-- Numeric value of a level (the Go `iota` constant). -/
def LogLevel.toNat : LogLevel → Nat
  | .unknown => 0
  | .debug => 1
  | .info => 2
  | .warn => 3
  | .error => 4
  | .fatal => 5

/-- Go `LogLevel.String` from `src/entity/logrecord.go`: indexes a
five-element array literal by the level's numeric value.  An out-of-range
index panics in Go, modelled here as `none`. -/
def LogLevel.render (l : LogLevel) : Option String :=
  ["DEBUG", "INFO", "WARN", "ERROR", "FATAL"][l.toNat]?

/-- Go `strings.ToLower` restricted to ASCII, which is all that the five
level keywords exercise. -/
def goToLower (s : String) : String :=
  ⟨s.data.map (fun c => if 'A' ≤ c ∧ c ≤ 'Z' then Char.ofNat (c.toNat + 32) else c)⟩

/-- `parseLevel` from `processor/util.go`: lower-cases the input and maps the
five level keywords; anything else is `Unknown`. -/
def parseLevel (level : String) : LogLevel :=
  match goToLower level with
  | "debug" => .debug
  | "info" => .info
  | "warn" => .warn
  | "error" => .error
  | "fatal" => .fatal
  | _ => .unknown

/-- JSON values, as produced by Go `encoding/json` decoding into
`map[string]any` (numbers kept abstract as integers here; the claims never
inspect numeric values inside metadata). -/
inductive JVal where
  | jStr (s : String)
  | jNum (n : Int)
  | jBool (b : Bool)
  | jNull
  | jArr (xs : List JVal)
  | jObj (kvs : List (String × JVal))

/-- A decoded JSON object: an association list with the Go map's keys. -/
abbrev JObj := List (String × JVal)

/-- Go map read `data[k]`: first binding of `k`, if any. -/
def JObj.lookup (data : JObj) (k : String) : Option JVal :=
  match data with
  | [] => none
  | (k', v) :: rest => if k' = k then some v else JObj.lookup rest k

/-- Go `delete(data, k)`. -/
def JObj.erase (data : JObj) (k : String) : JObj :=
  data.filter (fun kv => kv.1 ≠ k)

/-- The canonical log record (`entity.LogRecord`, variant with an `ID`).
The UUID is modelled as a natural number, `0` being the zero UUID. -/
structure LogRecord where
  id : Nat := 0
  source : String := ""
  rawData : String := ""
  level : LogLevel := .unknown
  timestamp : GoTime := (0 : Int)
  message : String := ""
  metadata : JObj := []

/-- Values carried by comparison nodes and appended to the SQL argument
list (Go `any`).  A Go `time.Time` argument is `vTime`. -/
inductive SqlValue where
  | vStr (s : String)
  | vInt (n : Int)
  | vTime (t : GoTime)
deriving DecidableEq, Repr

/-- `ComparisonOperator` from `querier/node.go`. -/
inductive ComparisonOperator where
  | opEq
  | opNe
  | opGt
  | opLt
  | opGte
  | opLte
  | opLike
  | opILike
  | opIn
deriving DecidableEq, Repr

/-- `ComparisonNode` from `querier/node.go`.  `value = none` models a Go
`nil` value. -/
structure ComparisonNode where
  fieldName : String
  value : Option SqlValue
  operator : ComparisonOperator
deriving DecidableEq, Repr

mutual

/-- The query tree (`AndNode` / `OrNode` / `NotNode` / `ComparisonNode`).
The `Children []QueryNode` slices are represented by the isomorphic
cons-list `QueryNodeList` so that the recursive translators reduce by
computation. -/
inductive QueryNode where
  | and (children : QueryNodeList)
  | or (children : QueryNodeList)
  | not (child : QueryNode)
  | comp (c : ComparisonNode)

/-- A list of query-tree children. -/
inductive QueryNodeList where
  | nil
  | cons (head : QueryNode) (tail : QueryNodeList)

end

/-- `SortField` from `querier/ast/ast.go`. -/
structure SortField where
  name : String
  isDescending : Bool
deriving DecidableEq, Repr

/-- `ast.Query`: the parsed query parameters.  `node = none` models a Go
`nil` root. -/
structure Query where
  node : Option QueryNode := none
  sort : List SortField := []
  start : GoTime := 0
  «end» : GoTime := 0
  limit : Int := 0
  cursor : String := ""

/-- `QueryDirection` from `querier/ast/ast.go`. -/
inductive QueryDirection where
  | forward
  | backward
deriving DecidableEq, Repr

/-- `Query.GetQueryDirection`: backward when `End` is non-zero and earlier
than `Start`. -/
def Query.getQueryDirection (r : Query) : QueryDirection :=
  if ¬ r.«end».isZero ∧ r.«end».before r.start then .backward else .forward

/-- `SQLOptions` from `querier/sqlbuilder.go`.  The compiled
`AllowedFilterFieldsRegex` is modelled by its `MatchString` predicate; `none`
models a `nil` regex (no validation). -/
structure SQLOptions where
  allowedSortFields : List String := []
  allowedFilterFieldsRegex : Option (String → Bool) := none
  tableName : String := ""
  selectColumns : List String := []

/-- `BuildResult` from `querier/sqlbuilder.go`. -/
structure BuildResult where
  query : String
  args : List SqlValue
deriving DecidableEq, Repr

/-- `formatComparison` from `querier/sqlbuilder.go`: validates the node,
checks the field name against the configured regex, maps the operator, and
emits `field op ?` with the value as the single argument. -/
def formatComparison (opts : SQLOptions) (n : ComparisonNode) :
    Except String (String × List SqlValue) :=
  let emit : Except String (String × List SqlValue) :=
    let args := [n.value.getD (.vStr "")]
    let op :=
      match n.operator with
      | .opEq => "="
      | .opNe => "!="
      | .opGt => ">"
      | .opLt => "<"
      | .opGte => ">="
      | .opLte => "<="
      | .opLike => "LIKE"
      | .opILike => "ILIKE"
      | .opIn => "IN"
    .ok (n.fieldName ++ " " ++ op ++ " ?", args)
  if n.fieldName = "" ∨ n.value = none then
    .error "invalid comparison node: missing field name or value"
  else
    match opts.allowedFilterFieldsRegex with
    | some matchString =>
      if matchString n.fieldName then emit
      else .error ("invalid field name: " ++ n.fieldName)
    | none => emit

/-- Final step of `joinNodes` from `querier/sqlbuilder.go`: if no child
contributed a fragment the group is empty, otherwise the fragments are
joined with the operator and wrapped in parentheses. -/
def joinParts (operator : String) :
    Except String (List String × List SqlValue) → Except String (String × List SqlValue)
  | .error e => .error e
  | .ok (parts, args) =>
    if parts = [] then .ok ("", [])
    else .ok ("(" ++ String.intercalate (" " ++ operator ++ " ") parts ++ ")", args)

mutual

/-- `parseQueryNode` from `querier/sqlbuilder.go`: recursively renders the
query tree into a SQL fragment and its argument list.  The `and`/`or` cases
are Go's `joinNodes`, split here into the child loop (`joinNodesAux`) and
the final join (`joinParts`). -/
def parseQueryNode (opts : SQLOptions) : QueryNode → Except String (String × List SqlValue)
  | .and cs => joinParts "AND" (joinNodesAux opts cs)
  | .or cs => joinParts "OR" (joinNodesAux opts cs)
  | .not c =>
    match parseQueryNode opts c with
    | .error e => .error e
    | .ok (childQuery, args) =>
      if childQuery = "" then .ok ("", [])
      else .ok ("NOT (" ++ childQuery ++ ")", args)
  | .comp c => formatComparison opts c

/-- Child loop of `joinNodes`: renders each child in order, keeping the
non-empty fragments and accumulating their arguments. -/
def joinNodesAux (opts : SQLOptions) :
    QueryNodeList → Except String (List String × List SqlValue)
  | .nil => .ok ([], [])
  | .cons child rest =>
    match parseQueryNode opts child with
    | .error e => .error e
    | .ok (q, qArgs) =>
      match joinNodesAux opts rest with
      | .error e => .error e
      | .ok (parts, args) =>
        if q = "" then .ok (parts, args)
        else .ok (q :: parts, qArgs ++ args)

end

/-- Top-level node rendering: a `nil` root contributes no clause. -/
def parseQueryRoot (opts : SQLOptions) : Option QueryNode → Except String (String × List SqlValue)
  | none => .ok ("", [])
  | some n => parseQueryNode opts n

/-- `buildWhereClause` from `querier/sqlbuilder.go`: orders the two
timestamps with `start.Compare(end)`, always emits the lower bound, emits the
upper bound when the larger timestamp is non-zero, then appends the rendered
tree clause. -/
def buildWhereClause (opts : SQLOptions) (root : Option QueryNode) (start «end» : GoTime) :
    Except String (String × List SqlValue) :=
  match parseQueryRoot opts root with
  | .error e => .error e
  | .ok (queryClause, args) =>
    let sTime : GoTime := if start.compareLt «end» then start else «end»
    let eTime : GoTime := if start.compareLt «end» then «end» else start
    let parts := ["timestamp >= ?"]
    let finalArgs := [SqlValue.vTime sTime]
    let parts := if ¬ eTime.isZero then parts ++ ["timestamp <= ?"] else parts
    let finalArgs := if ¬ eTime.isZero then finalArgs ++ [SqlValue.vTime eTime] else finalArgs
    let parts := if queryClause ≠ "" then parts ++ [queryClause] else parts
    let finalArgs := if queryClause ≠ "" then finalArgs ++ args else finalArgs
    .ok (String.intercalate " AND " parts, finalArgs)

/-- Validation loop of `buildOrderByClause`: renders each requested sort
field, failing on the first one outside the allow-list. -/
def buildSortParts (allowedFields : List String) : List SortField → Except String (List String)
  | [] => .ok []
  | f :: rest =>
    if f.name ∉ allowedFields then
      .error ("field `" ++ f.name ++ "` is not allowed for sorting")
    else
      match buildSortParts allowedFields rest with
      | .error e => .error e
      | .ok parts => .ok ((f.name ++ " " ++ if f.isDescending then "DESC" else "ASC") :: parts)

/-- `buildOrderByClause` from `querier/sqlbuilder.go`. -/
def buildOrderByClause (opts : SQLOptions) (start «end» : GoTime) (sortFields : List SortField) :
    Except String String :=
  let timeDirection := if ¬ «end».isZero ∧ «end».before start then "DESC" else "ASC"
  let allowedFields :=
    if opts.allowedSortFields = [] then ["source", "level", "timestamp"]
    else opts.allowedSortFields
  if sortFields = [] then .ok ("ORDER BY timestamp " ++ timeDirection)
  else
    match buildSortParts allowedFields sortFields with
    | .error e => .error e
    | .ok parts =>
      let hasTimestamp := sortFields.any (fun f => f.name = "timestamp")
      let parts := if ¬ hasTimestamp then parts ++ ["timestamp " ++ timeDirection] else parts
      .ok ("ORDER BY " ++ String.intercalate ", " parts)

/-- `Build` from `querier/sqlbuilder.go`: assembles the full `SELECT`. -/
def Build (opts : SQLOptions) (q : Query) : Except String BuildResult :=
  match buildWhereClause opts q.node q.start q.«end» with
  | .error e => .error ("failed to build where clause: " ++ e)
  | .ok (whereClause, args) =>
    match buildOrderByClause opts q.start q.«end» q.sort with
    | .error e => .error ("failed to build order by clause: " ++ e)
    | .ok orderByClause =>
      let limitClause := "LIMIT " ++ toString q.limit
      let selectCols :=
        if opts.selectColumns = [] then "*"
        else String.intercalate ", " opts.selectColumns
      .ok { query := "SELECT " ++ selectCols ++ " FROM " ++ opts.tableName ++ " WHERE "
                      ++ whereClause ++ " " ++ orderByClause ++ " " ++ limitClause,
            args := args }

/-- `JsonLogProcessorConfig` from `processor/json.go`: the configured field
names for level, message and timestamp. -/
structure JsonLogProcessorConfig where
  logLevelFieldName : String
  logMessageFieldName : String
  logTimestampFieldName : String

/-- `JsonLogProcessor.Process` from `processor/json.go`, starting from the
decoded JSON object (`json.Unmarshal` of `record.RawData`, which is Go
library code, is modelled by passing the decoded object `data`; the RFC 3339
timestamp parser `time.Parse(time.RFC3339, ·)` is the parameter
`parseRFC3339`).  Note the returned record is a fresh literal: it does not
carry over `record.Source` (or any other field of `record`). -/
def jsonProcess (cfg : JsonLogProcessorConfig) (parseRFC3339 : String → Option GoTime)
    (record : LogRecord) (data : JObj) : Except String LogRecord :=
  match data.lookup cfg.logTimestampFieldName with
  | some (.jStr timestampValue) =>
    if timestampValue = "" then .error "timestamp field is missing or not a string"
    else
      match parseRFC3339 timestampValue with
      | none => .error "cannot parse timestamp"
      | some timestamp =>
        let data := data.erase cfg.logTimestampFieldName
        match data.lookup cfg.logLevelFieldName with
        | some (.jStr levelValue) =>
          let level := parseLevel levelValue
          let data := data.erase cfg.logLevelFieldName
          let messageValue :=
            match data.lookup cfg.logMessageFieldName with
            | some (.jStr m) => m
            | _ => ""
          let data := data.erase cfg.logMessageFieldName
          .ok { level := level, message := messageValue, timestamp := timestamp,
                metadata := data }
        | _ => .error "level field is missing or not a string"
  | _ =>
    -- A present non-string value and an absent key take the same branch
    -- (`!ok || !isString`), as in the source.
    .error "timestamp field is missing or not a string"

/-- Spec-side description of the JSON processor (refinement target): all
three configured fields are read off the original decoded object, and the
metadata is the object with exactly the three configured keys removed. -/
def jsonProcessSpec (cfg : JsonLogProcessorConfig) (parseRFC3339 : String → Option GoTime)
    (data : JObj) : Except String LogRecord :=
  match data.lookup cfg.logTimestampFieldName with
  | some (.jStr timestampValue) =>
    if timestampValue = "" then .error "timestamp field is missing or not a string"
    else
      match parseRFC3339 timestampValue with
      | none => .error "cannot parse timestamp"
      | some timestamp =>
        match data.lookup cfg.logLevelFieldName with
        | some (.jStr levelValue) =>
          .ok { level := parseLevel levelValue,
                message :=
                  match data.lookup cfg.logMessageFieldName with
                  | some (.jStr m) => m
                  | _ => "",
                timestamp := timestamp,
                metadata := data.filter (fun kv =>
                  kv.1 ≠ cfg.logTimestampFieldName ∧ kv.1 ≠ cfg.logLevelFieldName ∧
                  kv.1 ≠ cfg.logMessageFieldName) }
        | _ => .error "level field is missing or not a string"
  | _ => .error "timestamp field is missing or not a string"

/-- State of `storageManager` from `engine/source.go` that the sequential
flush claims exercise: the processed-logs buffer, the configured maximum
batch size, and the batches handed to `StoreProcessedLogs` so far (each
dispatched flush performs exactly one store call with the swapped slice). -/
structure StorageManagerState where
  processedBuffer : List LogRecord
  bufferMaxSize : Nat
  -- `flushInterval = 0` disables the ticker of `storageManager.run`, so
  -- `addProcessedLogs` is the only producer of store calls.
  flushInterval : Int
  storeCalls : List (List LogRecord)

/-- `newStorageManager` from `engine/source.go`: empty buffer. -/
def newStorageManager (bufferMaxSize : Nat) (flushInterval : Int) : StorageManagerState :=
  { processedBuffer := [], bufferMaxSize := bufferMaxSize,
    flushInterval := flushInterval, storeCalls := [] }

/-- `storageManager.addProcessedLogs` from `engine/source.go`: append under
the lock; if the buffer reached the (nonzero) maximum size, swap it out and
dispatch the swapped slice to `flushProcessedLogs`, which calls
`StoreProcessedLogs` once with exactly that slice. -/
def addProcessedLogs (sm : StorageManagerState) (logs : List LogRecord) : StorageManagerState :=
  if logs.isEmpty then sm
  else
    let buffer := sm.processedBuffer ++ logs
    if 0 < sm.bufferMaxSize ∧ sm.bufferMaxSize ≤ buffer.length then
      { sm with processedBuffer := [], storeCalls := sm.storeCalls ++ [buffer] }
    else
      { sm with processedBuffer := buffer }

/-- Token kinds from `querier/token/token.go`. -/
inductive TokType where
  | illegal
  | eof
  | ident
  | intTok
  | decimalTok
  | stringTok
  | nullKw
  | trueKw
  | falseKw
  | comma
  | colon
  | lparen
  | rparen
  | equal
  | notEqual
  | less
  | lessEqual
  | greater
  | greaterEqual
  | tilde
  | minus
  | andOp
  | orOp
  | notOp
deriving DecidableEq, Repr

/-- `Token` from `querier/token/token.go`. -/
structure Token where
  type : TokType
  literal : String
deriving DecidableEq, Repr

/-- `isLetter` from `querier/lexer/lexer.go` (includes `_`, `.` and `-`). -/
def isLetterGo (c : Char) : Bool :=
  ('a' ≤ c ∧ c ≤ 'z') ∨ ('A' ≤ c ∧ c ≤ 'Z') ∨ c = '_' ∨ c = '.' ∨ c = '-'

/-- `isDigit` from `querier/lexer/lexer.go`. -/
def isDigitGo (c : Char) : Bool := '0' ≤ c ∧ c ≤ '9'

/-- `isWhitespace` from `querier/lexer/lexer.go`. -/
def isWhitespaceGo (c : Char) : Bool := c = ' ' ∨ c = '\t' ∨ c = '\n' ∨ c = '\r'

/-- `isOperator` from `querier/lexer/lexer.go`. -/
def isOperatorGo (c : Char) : Bool :=
  c = '=' ∨ c = '~' ∨ c = '!' ∨ c = '&' ∨ c = '|' ∨ c = '(' ∨ c = ')' ∨ c = '<' ∨ c = '>'

/-- `lookupIdent` from `querier/lexer/lexer.go`. -/
def lookupIdent (ident : String) : TokType :=
  match ident with
  | "null" => .nullKw
  | "true" => .trueKw
  | "false" => .falseKw
  | _ => .ident

/-- `readIdentifier`: consume until whitespace, comma, end of input or an
operator character. -/
def readIdentifierGo (cs : List Char) : Token × List Char :=
  let boundary := fun c => isWhitespaceGo c ∨ c = ',' ∨ isOperatorGo c
  let lit := cs.takeWhile (fun c => ¬ boundary c)
  let literal := String.mk lit
  (⟨lookupIdent literal, literal⟩, cs.dropWhile (fun c => ¬ boundary c))

/-- Loop of `readPossibleNumber`: returns the accumulated literal, whether a
dot was seen, whether the run remained a pure number, and the rest of the
input. -/
def readPossibleNumberLoop : List Char → Bool → Bool → List Char →
    List Char × Bool × Bool × List Char
  | [], hasDot, isPure, acc => (acc, hasDot, isPure, [])
  | c :: rest, hasDot, isPure, acc =>
    if isDigitGo c then readPossibleNumberLoop rest hasDot isPure (acc ++ [c])
    else if c = '.' then
      readPossibleNumberLoop rest true (if hasDot then false else isPure) (acc ++ [c])
    else if c = ',' ∨ isWhitespaceGo c ∨ isOperatorGo c then (acc, hasDot, isPure, c :: rest)
    else readPossibleNumberLoop rest hasDot false (acc ++ [c])

/-- `readPossibleNumber` from `querier/lexer/lexer.go`. -/
def readPossibleNumberGo (cs : List Char) : Token × List Char :=
  let (lit, hasDot, isPure, rest) := readPossibleNumberLoop cs false true []
  let literal := String.mk lit
  if ¬ isPure then (⟨.stringTok, literal⟩, rest)
  else if hasDot then (⟨.decimalTok, literal⟩, rest)
  else (⟨.intTok, literal⟩, rest)

/-- `readQuotedString` from `querier/lexer/lexer.go`; `cs` is the input after
the opening quote.  The closing quote (if any) is consumed by the caller's
final `readChar`. -/
def readQuotedStringGo (cs : List Char) : String × List Char :=
  let lit := cs.takeWhile (fun c => c ≠ '"')
  (String.mk lit, (cs.dropWhile (fun c => c ≠ '"')).drop 1)

/-- `Lexer.NextToken` from `querier/lexer/lexer.go`: skip whitespace, then
dispatch on the current character. -/
def nextTokenGo (input : List Char) : Token × List Char :=
  let cs := input.dropWhile isWhitespaceGo
  match cs with
  | [] => (⟨.eof, ""⟩, [])
  | c :: rest =>
    if c = '=' then (⟨.equal, "="⟩, rest)
    else if c = '~' then (⟨.tilde, "~"⟩, rest)
    else if c = '<' then
      if rest.head? = some '=' then (⟨.lessEqual, "<="⟩, rest.drop 1)
      else (⟨.less, "<"⟩, rest)
    else if c = '>' then
      if rest.head? = some '=' then (⟨.greaterEqual, ">="⟩, rest.drop 1)
      else (⟨.greater, ">"⟩, rest)
    else if c = '!' then
      if rest.head? = some '=' then (⟨.notEqual, "!="⟩, rest.drop 1)
      else (⟨.notOp, "!"⟩, rest)
    else if c = ',' then (⟨.comma, ","⟩, rest)
    else if c = '(' then (⟨.lparen, "("⟩, rest)
    else if c = ')' then (⟨.rparen, ")"⟩, rest)
    else if c = ':' then (⟨.colon, ":"⟩, rest)
    else if c = '&' then (⟨.andOp, "&"⟩, rest)
    else if c = '|' then (⟨.orOp, "|"⟩, rest)
    else if c = '-' then (⟨.minus, "-"⟩, rest)
    else if c = '"' then
      let (lit, r) := readQuotedStringGo rest
      (⟨.stringTok, lit⟩, r)
    else if isLetterGo c then readIdentifierGo (c :: rest)
    else if isDigitGo c then readPossibleNumberGo (c :: rest)
    else (⟨.illegal, String.mk [c]⟩, rest)

/-- Fuel-indexed tokenizer loop; every token other than `EOF` consumes at
least one character, so `input.length + 1` fuel always suffices. -/
def tokenizeLoop : Nat → List Char → List Token
  | 0, _ => []
  | fuel + 1, cs =>
    let (t, rest) := nextTokenGo cs
    if t.type = .eof then [t] else t :: tokenizeLoop fuel rest

/-- The lexer as a whole-input token stream (the Go lexer is lazy but
deterministic, so pre-tokenizing is equivalent). -/
def tokenize (s : String) : List Token := tokenizeLoop (s.length + 1) s.data

/-- Read exactly `n` decimal digits into a number. -/
def parseNDigits (n : Nat) (cs : List Char) : Option (Nat × List Char) :=
  let taken := cs.take n
  if taken.length = n ∧ taken.all isDigitGo then
    some (taken.foldl (fun a c => a * 10 + (c.toNat - 48)) 0, cs.drop n)
  else none

/-- Expect one specific character. -/
def expectChar (c : Char) : List Char → Option (List Char)
  | c' :: rest => if c' = c then some rest else none
  | [] => none

/-- Parse the `2006-01-02` date portion, with Go's range validation.
Modelled from the Go standard library `time.Parse` behaviour for the layouts
used in `querier/parser/parser.go`; valid for years ≥ 1. -/
def parseDatePart (cs : List Char) : Option (Nat × Nat × Nat × List Char) :=
  match parseNDigits 4 cs with
  | none => none
  | some (y, cs) =>
    match expectChar '-' cs with
    | none => none
    | some cs =>
      match parseNDigits 2 cs with
      | none => none
      | some (m, cs) =>
        match expectChar '-' cs with
        | none => none
        | some cs =>
          match parseNDigits 2 cs with
          | none => none
          | some (d, cs) =>
            if 1 ≤ y ∧ 1 ≤ m ∧ m ≤ 12 ∧ 1 ≤ d ∧ d ≤ daysInMonth y m then
              some (y, m, d, cs)
            else none

/-- Parse the `15:04` hour-minute portion with range validation. -/
def parseHourMinute (cs : List Char) : Option (Nat × Nat × List Char) :=
  match parseNDigits 2 cs with
  | none => none
  | some (hh, cs) =>
    match expectChar ':' cs with
    | none => none
    | some cs =>
      match parseNDigits 2 cs with
      | none => none
      | some (mi, cs) => if hh ≤ 23 ∧ mi ≤ 59 then some (hh, mi, cs) else none

/-- Parse the `:05` seconds portion with range validation. -/
def parseSeconds (cs : List Char) : Option (Nat × List Char) :=
  match expectChar ':' cs with
  | none => none
  | some cs =>
    match parseNDigits 2 cs with
    | none => none
    | some (ss, cs) => if ss ≤ 59 then some (ss, cs) else none

/-- Consume an optional fractional second (a dot followed by at least one
digit), which Go `time.Parse` accepts after a seconds element; the fraction
is discarded because all program times are second-resolution. -/
def skipFraction (cs : List Char) : List Char :=
  match cs with
  | '.' :: rest =>
    if (rest.head?.map isDigitGo).getD false then rest.dropWhile isDigitGo else cs
  | _ => cs

/-- Parse the RFC 3339 offset: `Z` or `±hh:mm`; result is the offset east of
UTC in seconds. -/
def parseOffset (cs : List Char) : Option (Int × List Char) :=
  match cs with
  | 'Z' :: rest => some (0, rest)
  | s :: rest =>
    if s = '+' ∨ s = '-' then
      match parseHourMinute rest with
      | none => none
      | some (oh, om, rest) =>
        let off : Int := (oh * 3600 + om * 60 : Nat)
        some (if s = '+' then off else -off, rest)
    else none
  | [] => none

/-- Go `time.Parse(time.RFC3339, v)`: full date, `T`, full time, optional
fraction, mandatory offset, end of input.  The result is normalized to UTC
by subtracting the offset. -/
def goParseRFC3339 (v : String) : Option GoTime :=
  match parseDatePart v.data with
  | none => none
  | some (y, m, d, cs) =>
    match expectChar 'T' cs with
    | none => none
    | some cs =>
      match parseHourMinute cs with
      | none => none
      | some (hh, mi, cs) =>
        match parseSeconds cs with
        | none => none
        | some (ss, cs) =>
          match parseOffset (skipFraction cs) with
          | some (off, []) => some (mkGoTime y m d hh mi ss - off)
          | _ => none

/-- Go `time.Parse("2006-01-02T15:04:05", v)`: no offset, interpreted as
UTC. -/
def goParseDateTimeSec (v : String) : Option GoTime :=
  match parseDatePart v.data with
  | none => none
  | some (y, m, d, cs) =>
    match expectChar 'T' cs with
    | none => none
    | some cs =>
      match parseHourMinute cs with
      | none => none
      | some (hh, mi, cs) =>
        match parseSeconds cs with
        | none => none
        | some (ss, cs) =>
          match skipFraction cs with
          | [] => some (mkGoTime y m d hh mi ss)
          | _ => none

/-- Go `time.Parse("2006-01-02T15:04", v)`. -/
def goParseDateTimeMin (v : String) : Option GoTime :=
  match parseDatePart v.data with
  | none => none
  | some (y, m, d, cs) =>
    match expectChar 'T' cs with
    | none => none
    | some cs =>
      match parseHourMinute cs with
      | some (hh, mi, []) => some (mkGoTime y m d hh mi 0)
      | _ => none

/-- Go `time.Parse("2006-01-02", v)`. -/
def goParseDateOnly (v : String) : Option GoTime :=
  match parseDatePart v.data with
  | some (y, m, d, []) => some (mkGoTime y m d 0 0 0)
  | _ => none

/-- `parseDatetime` from `querier/parser/parser.go`: tries the four layouts
in order (RFC 3339 first), a missing offset implying UTC. -/
def parseDatetimeGo (v : String) : Except String GoTime :=
  match goParseRFC3339 v with
  | some t => .ok t
  | none =>
    match goParseDateTimeSec v with
    | some t => .ok t
    | none =>
      match goParseDateTimeMin v with
      | some t => .ok t
      | none =>
        match goParseDateOnly v with
        | some t => .ok t
        | none => .error ("failed to parse datetime '" ++ v ++ "'")

/-- The EOF token the parser sees past the end of the stream. -/
def eofToken : Token := ⟨.eof, ""⟩

/-- `p.curToken` over the remaining token list. -/
def curTok : List Token → Token
  | [] => eofToken
  | t :: _ => t

/-- `p.peekToken`. -/
def peekTok : List Token → Token
  | _ :: t :: _ => t
  | _ => eofToken

/-- `p.nextToken()`. -/
def advanceTok : List Token → List Token
  | [] => []
  | _ :: rest => rest

/-- Outcome of `ParseQuery`: either the built query or a Go panic with its
message (`querier/parser/parser.go` panics instead of returning errors). -/
inductive ParseOutcome where
  | ok (q : Query)
  | panicked (msg : String)

/-- `parseTimestamp` from `querier/parser/parser.go`.  A Go `panic` is
modelled as `.error` with the panic message. -/
def parseTimestampGo (st : List Token) (q : Query) : Except String (List Token × Query) :=
  if (peekTok st).type ≠ .equal then .error "this is not ok. only = comes after timestamp"
  else
    let st := advanceTok st
    if (peekTok st).type ≠ .stringTok then .error "this is not ok. only string comes after ="
    else
      let st := advanceTok st
      match parseDatetimeGo (curTok st).literal with
      | .error e => .error e
      | .ok start =>
        let q := { q with start := start }
        if (peekTok st).type ≠ .comma then .ok (st, q)
        else
          let st := advanceTok st
          if (peekTok st).type ≠ .stringTok then
            .error "this is not ok. only string comes after ,"
          else
            let st := advanceTok st
            match parseDatetimeGo (curTok st).literal with
            | .error e => .error e
            | .ok endTime => .ok (advanceTok st, { q with «end» := endTime })

/-- `parseLimit` from `querier/parser/parser.go`. -/
def parseLimitGo (st : List Token) (q : Query) : Except String (List Token × Query) :=
  if (peekTok st).type ≠ .equal then .error "this is not ok. only = comes after limit"
  else
    let st := advanceTok st
    if (peekTok st).type ≠ .intTok then .error "this is not ok. only int comes after ="
    else
      let st := advanceTok st
      match (curTok st).literal.toInt? with
      | none => .error "strconv.Atoi failed"
      | some limit => .ok (advanceTok st, { q with limit := limit })

/-- `parseCursor` from `querier/parser/parser.go`. -/
def parseCursorGo (st : List Token) (q : Query) : Except String (List Token × Query) :=
  if (peekTok st).type ≠ .equal then .error "this is not ok. only = comes after cursor"
  else
    let st := advanceTok st
    if (peekTok st).type ≠ .stringTok then
      .error "this is not ok. only string comes after = which came"
    else
      let st := advanceTok st
      .ok (advanceTok st, { q with cursor := (curTok st).literal })

/-- `parseControlStatement` from `querier/parser/parser.go`: dispatch on the
current token's literal; the `sort` case is an empty body; any other keyword
hits the `default` branch, which panics with `"unexpected token"`. -/
def parseControlStatementGo (st : List Token) (q : Query) : Except String (List Token × Query) :=
  match (curTok st).literal with
  | "timestamp" => parseTimestampGo st q
  | "limit" => parseLimitGo st q
  | "cursor" => parseCursorGo st q
  | "sort" => .ok (st, q)
  | _ => .error "unexpected token"

/-- The `ParseQuery` loop from `querier/parser/parser.go`: until EOF, switch
into the filter section on `:` (whose parsing is a TODO in the source, so
those tokens are skipped), otherwise run one control statement; every
iteration ends with `nextToken`.  Each iteration consumes at least one
token, so `tokens.length + 1` fuel always suffices. -/
def parseQueryLoop : Nat → List Token → Query → Bool → ParseOutcome
  | 0, _, _, _ => .panicked "out of fuel"
  | fuel + 1, st, q, isParsingFilterSection =>
    if (curTok st).type = .eof then .ok q
    else
      let isParsingFilterSection :=
        if (curTok st).type = .colon then true else isParsingFilterSection
      if isParsingFilterSection then parseQueryLoop fuel (advanceTok st) q isParsingFilterSection
      else
        match parseControlStatementGo st q with
        | .error e => .panicked e
        | .ok (st', q') => parseQueryLoop fuel (advanceTok st') q' isParsingFilterSection

/-- `ParseQuery` over an input string: lex, then run the parse loop starting
from the zero-valued `ast.Query`. -/
def parseQuery (input : String) : ParseOutcome :=
  let toks := tokenize input
  parseQueryLoop (toks.length + 1) toks {} false

mutual

/-- A comparison node occurs somewhere in the query tree. -/
def containsComp (c : ComparisonNode) : QueryNode → Bool
  | .and cs => containsCompList c cs
  | .or cs => containsCompList c cs
  | .not child => containsComp c child
  | .comp c' => c' = c

/-- List form of `containsComp`. -/
def containsCompList (c : ComparisonNode) : QueryNodeList → Bool
  | .nil => false
  | .cons n rest => containsComp c n || containsCompList c rest

end

/-- The seed AST of scenario S3:
`And([Comparison{source, Eq, "nginx"}, Or([Comparison{level, Eq, "error"},
Comparison{metadata.status, Gte, 500}])])`. -/
def s3Ast : QueryNode :=
  .and (.cons (.comp ⟨"source", some (.vStr "nginx"), .opEq⟩)
    (.cons (.or (.cons (.comp ⟨"level", some (.vStr "error"), .opEq⟩)
      (.cons (.comp ⟨"metadata.status", some (.vInt 500), .opGte⟩) .nil))) .nil))

/-- The configured fields of scenario S5: `{level:"l", message:"m",
timestamp:"t"}`. -/
def s5Cfg : JsonLogProcessorConfig :=
  { logLevelFieldName := "l", logMessageFieldName := "m", logTimestampFieldName := "t" }

/-- The decoded raw object of scenario S5:
`{"l":"warn","m":"disk","t":"2024-01-02T03:04:05Z","host":"a"}`. -/
def s5Data : JObj :=
  [("l", .jStr "warn"), ("m", .jStr "disk"),
   ("t", .jStr "2024-01-02T03:04:05Z"), ("host", .jStr "a")]

/-- A raw record as a source adaptor emits it: `source` and `rawData` set
(the raw line is the JSON text of `s5Data`), `timestamp` set to ingest
time. -/
def s5InputRecord : LogRecord :=
  { source := "nginx",
    rawData := "\x7b\"l\":\"warn\",\"m\":\"disk\",\"t\":\"2024-01-02T03:04:05Z\",\"host\":\"a\"\x7d",
    timestamp := mkGoTime 2024 1 2 3 4 6 }

/-- A comparison whose field name fails the configured regex makes
`formatComparison` return an error (either the regex rejection or, for an
empty field name or nil value, the validity error). -/
theorem formatComparison_err (opts : SQLOptions) (p : String → Bool)
    (hp : opts.allowedFilterFieldsRegex = some p) (c : ComparisonNode)
    (hbad : p c.fieldName = false) :
    ∃ e, formatComparison opts c = .error e := by
  unfold formatComparison
  by_cases h : c.fieldName = "" ∨ c.value = none
  · simp [h]
  · simp [h, hp, hbad]

mutual

/-- Error propagation through the tree: if a comparison rejected by the
configured regex occurs anywhere in the node, rendering the node errors. -/
theorem parseQueryNode_err (opts : SQLOptions) (p : String → Bool)
    (hp : opts.allowedFilterFieldsRegex = some p) (c : ComparisonNode)
    (hbad : p c.fieldName = false) :
    ∀ n : QueryNode, containsComp c n = true → ∃ e, parseQueryNode opts n = .error e
  | .and cs, h => by
    obtain ⟨e, he⟩ := joinNodesAux_err opts p hp c hbad cs (by simpa [containsComp] using h)
    exact ⟨e, by simp [parseQueryNode, joinParts, he]⟩
  | .or cs, h => by
    obtain ⟨e, he⟩ := joinNodesAux_err opts p hp c hbad cs (by simpa [containsComp] using h)
    exact ⟨e, by simp [parseQueryNode, joinParts, he]⟩
  | .not child, h => by
    obtain ⟨e, he⟩ := parseQueryNode_err opts p hp c hbad child (by simpa [containsComp] using h)
    exact ⟨e, by simp [parseQueryNode, he]⟩
  | .comp c', h => by
    have hc : c' = c := by simpa [containsComp] using h
    subst hc
    obtain ⟨e, he⟩ := formatComparison_err opts p hp c' hbad
    exact ⟨e, by simp [parseQueryNode, he]⟩

/-- List form of `parseQueryNode_err` for the child loop. -/
theorem joinNodesAux_err (opts : SQLOptions) (p : String → Bool)
    (hp : opts.allowedFilterFieldsRegex = some p) (c : ComparisonNode)
    (hbad : p c.fieldName = false) :
    ∀ l : QueryNodeList, containsCompList c l = true →
      ∃ e, joinNodesAux opts l = .error e
  | .nil, h => by simp [containsCompList] at h
  | .cons n rest, h => by
    have h' : containsComp c n = true ∨ containsCompList c rest = true := by
      simpa [containsCompList] using h
    rcases h' with h1 | h2
    · obtain ⟨e, he⟩ := parseQueryNode_err opts p hp c hbad n h1
      exact ⟨e, by simp [joinNodesAux, he]⟩
    · obtain ⟨e2, he2⟩ := joinNodesAux_err opts p hp c hbad rest h2
      cases hpn : parseQueryNode opts n with
      | error e => exact ⟨e, by simp [joinNodesAux, hpn]⟩
      | ok v => exact ⟨e2, by simp [joinNodesAux, hpn, he2]⟩

end

/-- C2: for every `Comparison` in the query tree whose field name does not
match the configured allow-list regex, `Build` returns an error and so
produces no SQL string — the non-matching field name is never inlined. -/
theorem build_rejects_disallowed_field (opts : SQLOptions) (p : String → Bool)
    (q : Query) (c : ComparisonNode) (n : QueryNode)
    (hp : opts.allowedFilterFieldsRegex = some p)
    (hn : q.node = some n)
    (hc : containsComp c n = true)
    (hbad : p c.fieldName = false) :
    ∃ e, Build opts q = .error e := by
  obtain ⟨e, he⟩ := parseQueryNode_err opts p hp c hbad n hc
  refine ⟨"failed to build where clause: " ++ e, ?_⟩
  unfold Build buildWhereClause parseQueryRoot
  rw [hn]
  simp [he]

/-- Witness for `build_rejects_disallowed_field`: scenario S4, a comparison
on `password` against a regex admitting only `level`. -/
theorem build_rejects_disallowed_field_witness :
    ∃ e, Build { allowedFilterFieldsRegex := some (fun s => s == "level") }
        { node := some (.comp ⟨"password", some (.vStr "x"), .opEq⟩) } = .error e :=
  build_rejects_disallowed_field
    { allowedFilterFieldsRegex := some (fun s => s == "level") }
    (fun s => s == "level")
    { node := some (.comp ⟨"password", some (.vStr "x"), .opEq⟩) }
    ⟨"password", some (.vStr "x"), .opEq⟩
    (.comp ⟨"password", some (.vStr "x"), .opEq⟩)
    rfl rfl (by decide) rfl

/-- C10: `LogLevel.String` in `src/entity/logrecord.go` indexes a
five-element array by the level value, so `Fatal` (= 5) reads past the end
(a Go panic, `none` here), and every other level renders as the next-lower
level's name, `Unknown` rendering as `"DEBUG"`. -/
theorem logLevel_render_off_by_one :
    LogLevel.render .fatal = none ∧
    LogLevel.render .unknown = some "DEBUG" ∧
    LogLevel.render .debug = some "INFO" ∧
    LogLevel.render .info = some "WARN" ∧
    LogLevel.render .warn = some "ERROR" ∧
    LogLevel.render .error = some "FATAL" := by
  decide

/-- C9: the parser panics (rather than surfacing a syntax error) on
ill-formed input: a control section starting with the unexpected keyword
`foo` hits the `default: panic("unexpected token")` branch, and a `limit`
statement whose right-hand side is not an integer token hits
`panic("this is not ok. only int comes after =")`. -/
theorem parseQuery_panics_on_ill_formed :
    parseQuery "foo=2" = .panicked "unexpected token" ∧
    parseQuery "limit=abc" = .panicked "this is not ok. only int comes after =" := by
  constructor <;> rfl

/-- C8: parsing `timestamp=2022-02-12T12:00:00,2022-02-12T10:10:10` yields
`start = 2022-02-12T12:00:00Z` and `end = 2022-02-12T10:10:10Z` (the second
layout, UTC implied), and `GetQueryDirection` on the parsed query is
`Backward`. -/
theorem parseQuery_timestamp_range_backward :
    parseQuery "timestamp=2022-02-12T12:00:00,2022-02-12T10:10:10" =
      .ok { start := mkGoTime 2022 2 12 12 0 0, «end» := mkGoTime 2022 2 12 10 10 10 } ∧
    Query.getQueryDirection
        { start := mkGoTime 2022 2 12 12 0 0, «end» := mkGoTime 2022 2 12 10 10 10 } =
      .backward := by
  constructor <;> rfl

/-- C6: with `maxSize = 3` and `interval = 0` (scheduled flushing disabled),
the sequence `Add(r1); Add(r2); Add(r3)` performs exactly one store call,
with batch exactly `[r1, r2, r3]`, and leaves the buffer empty. -/
theorem storage_buffer_size_triggered_flush (r1 r2 r3 : LogRecord) :
    (addProcessedLogs (addProcessedLogs (addProcessedLogs
        (newStorageManager 3 0) [r1]) [r2]) [r3]).storeCalls = [[r1, r2, r3]] ∧
    (addProcessedLogs (addProcessedLogs (addProcessedLogs
        (newStorageManager 3 0) [r1]) [r2]) [r3]).processedBuffer = [] := by
  simp [addProcessedLogs, newStorageManager, List.isEmpty]

/-- C4 (counter-evidence): the JSON processor's returned record does not
preserve the source name.  On the S5 input with `source = "nginx"`, `Process`
succeeds but returns a record whose `source` is empty, so the record that
completes processing has an unpopulated `source`. -/
theorem jsonProcess_drops_source :
    jsonProcess s5Cfg goParseRFC3339 s5InputRecord s5Data =
      .ok { level := .warn, message := "disk", timestamp := mkGoTime 2024 1 2 3 4 5,
            metadata := [("host", .jStr "a")], source := "" } ∧
    s5InputRecord.source = "nginx" ∧ ("" : String) ≠ "nginx" := by
  refine ⟨rfl, rfl, by decide⟩

/-- C1 (counterexample): for `start = 2022-02-12T12:00:00Z` (non-zero) and a
zero `end`, the WHERE clause does not consist of only the lower bound bound
to `start`: the swap in `buildWhereClause` makes the zero time the lower
bound and `start` the upper bound, so both bounds are emitted with argument
list `[zero, start]`. -/
theorem buildWhereClause_zero_end_two_bounds :
    buildWhereClause {} none (mkGoTime 2022 2 12 12 0 0) 0 =
      .ok ("timestamp >= ? AND timestamp <= ?",
           [.vTime 0, .vTime (mkGoTime 2022 2 12 12 0 0)]) ∧
    buildWhereClause {} none (mkGoTime 2022 2 12 12 0 0) 0 ≠
      .ok ("timestamp >= ?", [.vTime (mkGoTime 2022 2 12 12 0 0)]) := by
  constructor
  · rfl
  · decide

/-- C7: `parseLevel` maps `debug`, `info`, `warn`, `error`, `fatal`
(compared case-insensitively, via lower-casing) to the corresponding level,
and every other input to `Unknown`. -/
theorem parseLevel_cases (s : String) :
    (parseLevel s = .debug ↔ goToLower s = "debug") ∧
    (parseLevel s = .info ↔ goToLower s = "info") ∧
    (parseLevel s = .warn ↔ goToLower s = "warn") ∧
    (parseLevel s = .error ↔ goToLower s = "error") ∧
    (parseLevel s = .fatal ↔ goToLower s = "fatal") ∧
    (goToLower s ∉ ["debug", "info", "warn", "error", "fatal"] →
      parseLevel s = .unknown) := by
  unfold parseLevel
  generalize goToLower s = t
  split <;> simp_all

/-- Witness for `parseLevel_cases` at the concrete inputs `"WaRn"` and
`"bogus"`. -/
theorem parseLevel_cases_witness :
    parseLevel "WaRn" = .warn ∧ parseLevel "bogus" = .unknown :=
  ⟨(parseLevel_cases "WaRn").2.2.1.mpr (by decide),
   (parseLevel_cases "bogus").2.2.2.2.2 (by decide)⟩

/-- C1 (amended): when `end` is zero and `start` is a real (positive)
timestamp, the WHERE clause carries both bounds — `timestamp >= ?` bound to
the zero time and `timestamp <= ?` bound to `start` — followed by the tree
clause; and for every pair of timestamps the clause and arguments are
symmetric in `start` and `end` (swapping them changes nothing). -/
theorem buildWhereClause_bounds (opts : SQLOptions) (root : Option QueryNode)
    (s e : GoTime) (qc : String) (args : List SqlValue)
    (hs : 0 < s) (hq : parseQueryRoot opts root = .ok (qc, args)) :
    buildWhereClause opts root s 0 =
      .ok ((if qc = "" then "timestamp >= ? AND timestamp <= ?"
            else "timestamp >= ? AND timestamp <= ? AND " ++ qc),
           [SqlValue.vTime 0, SqlValue.vTime s] ++ (if qc = "" then [] else args)) ∧
    buildWhereClause opts root s e = buildWhereClause opts root e s := by
  constructor
  · unfold buildWhereClause
    rw [hq]
    have hlt : GoTime.compareLt s 0 = false := by
      simp [GoTime.compareLt]
      exact le_of_lt hs
    have hz : GoTime.isZero s = false := by
      simp [GoTime.isZero]
      exact ne_of_gt hs
    have hne : s ≠ 0 := ne_of_gt hs
    simp only [hlt, hz]
    by_cases hqc : qc = "" <;>
      simp [hqc, hne, String.intercalate, String.intercalate.go, GoTime.isZero]
  · unfold buildWhereClause
    rcases lt_trichotomy s e with h | h | h
    · have h1 : GoTime.compareLt s e = true := by simp [GoTime.compareLt, h]
      have h2 : GoTime.compareLt e s = false := by
        simp [GoTime.compareLt]
        exact le_of_lt h
      simp [h1, h2]
    · subst h
      rfl
    · have h1 : GoTime.compareLt s e = false := by
        simp [GoTime.compareLt]
        exact le_of_lt h
      have h2 : GoTime.compareLt e s = true := by simp [GoTime.compareLt, h]
      simp [h1, h2]

/-- Witness for `buildWhereClause_bounds` at `s = 1`, `e = 5`, empty tree. -/
theorem buildWhereClause_bounds_witness :
    buildWhereClause {} none 1 0 =
      .ok ((if "" = "" then "timestamp >= ? AND timestamp <= ?"
            else "timestamp >= ? AND timestamp <= ? AND " ++ ""),
           [SqlValue.vTime 0, SqlValue.vTime 1] ++ (if "" = "" then [] else [])) ∧
    buildWhereClause {} none 1 5 = buildWhereClause {} none 5 1 :=
  buildWhereClause_bounds {} none 1 5 "" [] (by decide) rfl

/-- C3: on the S3 AST with `start = T0`, `end = T1` (`T0` earlier than `T1`,
`T1` an actual timestamp) and `limit = 50`, `Build` emits exactly
`WHERE timestamp >= ? AND timestamp <= ? AND (source = ? AND (level = ? OR
metadata.status >= ?)) ORDER BY timestamp ASC LIMIT 50` with arguments
`[T0, T1, "nginx", "error", 500]` — one placeholder per comparison. -/
theorem build_s3_translation (T0 T1 : GoTime) (h01 : T0 < T1) (h1 : T1 ≠ 0) :
    Build { tableName := "processed_logs" }
        { node := some s3Ast, start := T0, «end» := T1, limit := 50 } =
      .ok { query := "SELECT * FROM processed_logs WHERE timestamp >= ? AND timestamp <= ? AND (source = ? AND (level = ? OR metadata.status >= ?)) ORDER BY timestamp ASC LIMIT 50",
            args := [.vTime T0, .vTime T1, .vStr "nginx", .vStr "error", .vInt 500] } := by
  have hlt : GoTime.compareLt T0 T1 = true := by simp [GoTime.compareLt, h01]
  have hz : GoTime.isZero T1 = false := by simp [GoTime.isZero, h1]
  have hbefore : GoTime.before T1 T0 = false := by
    simp [GoTime.before]
    exact le_of_lt h01
  have htree : parseQueryRoot { tableName := "processed_logs" } (some s3Ast) =
      .ok ("(source = ? AND (level = ? OR metadata.status >= ?))",
           [.vStr "nginx", .vStr "error", .vInt 500]) := by rfl
  unfold Build buildWhereClause buildOrderByClause
  rw [htree]
  simp [hlt, hz, hbefore, String.intercalate, String.intercalate.go]
  rfl

/-- Reading a different key is unaffected by `delete`. -/
theorem lookup_erase_ne (data : JObj) (k k' : String) (h : k' ≠ k) :
    (data.erase k).lookup k' = data.lookup k' := by
  have hkk : ¬ k = k' := fun hh => h hh.symm
  induction data with
  | nil => rfl
  | cons kv rest ih =>
    by_cases h1 : kv.1 = k
    · simp [JObj.erase, List.filter, JObj.lookup, h1, hkk] at *
      exact ih
    · by_cases h2 : kv.1 = k'
      · simp [JObj.erase, List.filter, JObj.lookup, h1, h2, hkk, h]
      · simp [JObj.erase, List.filter, JObj.lookup, h1, h2] at *
        exact ih

/-- Deleting the three extracted keys one after the other equals filtering
the original object down to the other keys. -/
theorem erase_erase_erase (data : JObj) (a b c : String) :
    ((data.erase a).erase b).erase c =
      data.filter (fun kv => kv.1 ≠ a ∧ kv.1 ≠ b ∧ kv.1 ≠ c) := by
  unfold JObj.erase
  rw [List.filter_filter, List.filter_filter]
  apply List.filter_congr
  intro kv _
  by_cases h1 : kv.1 = a <;> by_cases h2 : kv.1 = b <;> by_cases h3 : kv.1 = c <;>
    simp [h1, h2, h3]

/-- C5: for every record whose raw data decodes as a JSON object, the JSON
processor behaves exactly as specified — it errors iff the configured
timestamp field is missing, non-string, empty or unparseable as RFC 3339, or
the configured level field is missing or non-string; on success the level is
`parseLevel` of the level string, the message is the configured message
field when it is a string and empty otherwise, the timestamp is the parsed
value, and the metadata is the decoded object with exactly the three
configured keys removed.  (The three configured field names are assumed
distinct.) -/
theorem jsonProcess_matches_spec (cfg : JsonLogProcessorConfig)
    (parse : String → Option GoTime) (record : LogRecord) (data : JObj)
    (h1 : cfg.logLevelFieldName ≠ cfg.logTimestampFieldName)
    (h2 : cfg.logMessageFieldName ≠ cfg.logTimestampFieldName)
    (h3 : cfg.logMessageFieldName ≠ cfg.logLevelFieldName) :
    jsonProcess cfg parse record data = jsonProcessSpec cfg parse data := by
  unfold jsonProcess jsonProcessSpec
  cases hts : data.lookup cfg.logTimestampFieldName with
  | none => rfl
  | some v =>
    cases v with
    | jStr s =>
      by_cases hs : s = ""
      · simp [hs]
      · simp only [hs, if_false]
        cases hparse : parse s with
        | none => rfl
        | some t =>
          rw [lookup_erase_ne data cfg.logTimestampFieldName cfg.logLevelFieldName h1]
          cases hlv : data.lookup cfg.logLevelFieldName with
          | none => rfl
          | some w =>
            cases w with
            | jStr lv =>
              rw [lookup_erase_ne (data.erase cfg.logTimestampFieldName)
                    cfg.logLevelFieldName cfg.logMessageFieldName h3,
                  lookup_erase_ne data cfg.logTimestampFieldName cfg.logMessageFieldName h2,
                  erase_erase_erase]
            | jNum n => rfl
            | jBool b => rfl
            | jNull => rfl
            | jArr xs => rfl
            | jObj kvs => rfl
    | jNum n => rfl
    | jBool b => rfl
    | jNull => rfl
    | jArr xs => rfl
    | jObj kvs => rfl

/-- Witness for `jsonProcess_matches_spec`: scenario S5 with the concrete
RFC 3339 parser model. -/
theorem jsonProcess_matches_spec_witness :
    jsonProcess s5Cfg goParseRFC3339 s5InputRecord s5Data =
      jsonProcessSpec s5Cfg goParseRFC3339 s5Data :=
  jsonProcess_matches_spec s5Cfg goParseRFC3339 s5InputRecord s5Data
    (by decide) (by decide) (by decide)

/-- Witness for `build_s3_translation` at `T0 = 100`, `T1 = 200`. -/
theorem build_s3_translation_witness :
    Build { tableName := "processed_logs" }
        { node := some s3Ast, start := 100, «end» := 200, limit := 50 } =
      .ok { query := "SELECT * FROM processed_logs WHERE timestamp >= ? AND timestamp <= ? AND (source = ? AND (level = ? OR metadata.status >= ?)) ORDER BY timestamp ASC LIMIT 50",
            args := [.vTime 100, .vTime 200, .vStr "nginx", .vStr "error", .vInt 500] } :=
  build_s3_translation 100 200 (by decide) (by decide)

end Logzilla
